import Mathlib

/-!
Verification development for the gulp-memoize repository.

Shallow embedding of the memoizing task proxy: `src/index.js` (the plugin
entry, option merging, the stream `each`/`flush` handlers), `src/helpers.js`
(`fileBytes`), and `src/task-proxy.js` (the `TaskProxy` class: key
derivation, restore/remember against the memo store, the correlation
listeners on the shared task, and flush-time cleanup).

Vinyl files are modelled as records; `clone({ contents: false })` produces a
copy whose contents reference the same buffer and whose other fields are
copied, which in a pure value model is the identity on the record.  The
injected md5 digest and the base64 rendering of a buffer are external
collaborators and appear as function parameters / injective stand-ins.
-/

namespace GulpMemoize

/-- Payload of a vinyl file: `null`, a materialized buffer of bytes, or an
open-ended stream. -/
inductive Contents where
  | null : Contents
  | buffer : List Nat → Contents
  | stream : Contents
deriving DecidableEq, Repr

/-- A vinyl file: identity fields (`path`, `base`), the payload, custom
user-visible properties (`extra`, e.g. the `ran` flag the tests use), and the
transient `_memoKey` correlation tag (`none` when the property is absent).
The key values the user `key` function can produce are JS values; a falsy
result (`undefined`/`null`) is modelled as `none`, a string as `some s`
(the empty string being the falsy string). -/
structure File where
  path : String
  base : String
  contents : Contents
  extra : List (String × String)
  tag : Option (Option String)
deriving DecidableEq, Repr

/-- vinyl `file.isNull()`: the contents are null. -/
def File.isNull (f : File) : Bool :=
  match f.contents with
  | Contents.null => true
  | _ => false

/-- vinyl `file.isStream()`: the contents are an open-ended stream. -/
def File.isStream (f : File) : Bool :=
  match f.contents with
  | Contents.stream => true
  | _ => false

/-- vinyl `file.isBuffer()`: the contents are a materialized buffer. -/
def File.isBuffer (f : File) : Bool :=
  match f.contents with
  | Contents.buffer _ => true
  | _ => false

/-- Translation of `helpers.js` `fileBytes(file)`: `if (!file.isBuffer()) return 0; return
file.contents.byteLength`. -/
def fileBytes (f : File) : Nat :=
  match f.contents with
  | Contents.buffer b => b.length
  | _ => 0

/-- The last `/`-separated segment of a path: vinyl `file.basename`,
which is derived from `file.path`. -/
def basenameStr (p : String) : String :=
  (p.data.foldl (fun acc c => if c = '/' then [] else acc ++ [c]) []).asString

/-- vinyl `file.basename` (a function of the current `path`). -/
def File.basename (f : File) : String := basenameStr f.path

/-- vinyl `file.clone({ contents: false })`: a copy of the file whose
contents field references the same buffer and whose other fields are copied
— the identity in a pure value model. -/
def File.cloneContentsFalse (f : File) : File := f

/-- Setting `file._memoKey = memoKey` before writing into the shared task. -/
def setTag (f : File) (k : Option String) : File := { f with tag := some k }

/-- A JS value produced by the user `key` function, used truthily:
`undefined`/`null` (`none`) and the empty string are falsy. -/
def jsTruthy : Option String → Bool
  | none => false
  | some s => if s = "" then false else true

/-- Possible memo-map keys: the user key hashed (a string) or the falsy
derivation result used as the Map key directly (`undefined`, modelled
`none`, or a falsy string). -/
abbrev MemoKey := Option String

/-- The memo store `Map<string, File[]>`, as an insertion-ordered
association list (JS `Map` iterates in insertion order; `Map.set` of a new
key appends). -/
abbrev Memo := List (MemoKey × List File)

/-- JS `Map.prototype.get`. -/
def memoGet (m : Memo) (k : MemoKey) : Option (List File) :=
  match m with
  | [] => none
  | (k₂, v) :: rest => if k₂ = k then some v else memoGet rest k

/-- Translation of `TaskProxy._remember`'s store mutation: `if (memo.has(key))
memo.get(key).push(copy) else memo.set(key, [copy])`. -/
def rememberInto (m : Memo) (k : MemoKey) (fileCopy : File) : Memo :=
  match m with
  | [] => [(k, [fileCopy])]
  | (k₂, v) :: rest =>
      if k₂ = k then (k₂, v ++ [fileCopy]) :: rest
      else (k₂, v) :: rememberInto rest k fileCopy

/-- The `value` option a caller may pass: absent (whole item), a string
field name, or a function returning an object to merge. -/
inductive ValueOpt where
  | whole : ValueOpt
  | field : String → ValueOpt
  | fn : (File → List (String × String)) → ValueOpt

/-- The effective options a `TaskProxy` instance runs with.  `hash` is the
injected one-way digest (`helpers.js` `hash`, md5).  `success` and `value`
are options a caller can supply; whether the implementation consults them is
exactly what the translated operations below show. -/
structure Opts where
  key : File → Option String
  hash : String → String
  verbose : Bool
  clearMemoOnFlush : Bool
  success : File → Bool
  value : ValueOpt

/-- Translation of `TaskProxy._getFileKey`: `const key = await this.options.key(file);
return key ? hash(key) : key`. -/
def getFileKey (o : Opts) (f : File) : MemoKey :=
  let key := o.key f
  if jsTruthy key then
    match key with
    | some s => some (o.hash s)
    | none => none
  else key

/-- A closure pushed onto `this._listenerRemovers`: either the restore
path's `() => signals.removeAllListeners()` (touching only the per-item
signals), or the `_runTask` remover that removes the three task listeners
and lowers the task's max-listeners ceiling by three. -/
inductive Remover where
  | restoreSignals : Remover
  | taskCorrelation : Remover
deriving DecidableEq, Repr

/-- The mutable state of a `TaskProxy` instance together with the listener
bookkeeping it performs on the shared task: `taskListeners` counts the
listeners this proxy currently has attached to the task, and
`taskMaxListeners` is the task's max-listeners ceiling (`_maxListeners || 0`
at construction). -/
structure Proxy where
  memo : Memo
  memoBytes : Nat
  restoredCount : Nat
  taskListeners : Nat
  taskMaxListeners : Nat
  removers : List Remover
deriving DecidableEq, Repr

/-- The constructor loop `for (const cell of this._memo.values())
this._memoBytes += cell.reduce((acc, file) => acc + fileBytes(file), 0)`. -/
def initMemoBytes (m : Memo) : Nat :=
  m.foldl (fun acc cell => acc + cell.2.foldl (fun a f => a + fileBytes f) 0) 0

/-- Translation of the `TaskProxy` construction: the injected memo is adopted, `_memoBytes` is
initialized from its current entries, counters start at zero and no
removers are registered; `taskMax` is the task's pre-existing max-listeners
ceiling. -/
def mkProxy (taskMax : Nat) (memo : Memo) : Proxy :=
  { memo := memo
    memoBytes := initMemoBytes memo
    restoredCount := 0
    taskListeners := 0
    taskMaxListeners := taskMax
    removers := [] }

/-- Translation of `TaskProxy._restore`'s entry selection inside a cell:
`cell.length === 1 ? cell[0] : cell.find((el) => el.basename ===
inputFile.basename) || cell[0]`.  (Cells are never empty in reachable
states; on an empty cell the source would throw before selecting.) -/
def pickMemoFile (cell : List File) (input : File) : Option File :=
  if cell.length = 1 then cell.head?
  else
    match cell.find? (fun el => el.basename == input.basename) with
    | some m => some m
    | none => cell.head?

/-- Translation of `TaskProxy._restore`'s clone-and-repoint: clone the selected memo entry
without contents ownership, then re-point `path` and `base` to the incoming
file's identity (which also re-derives `basename`). -/
def restoreFile (memoFile input : File) : File :=
  let r := memoFile.cloneContentsFalse
  { r with path := input.path, base := input.base }

/-- Translation of `TaskProxy._remember`: clone the produced file without contents
ownership, store it under the key (appending to an existing cell), and add
its byte length to the running total.  No option other than `verbose`
(reporting only) is consulted. -/
def rememberOp (p : Proxy) (k : MemoKey) (memoFile : File) : Proxy :=
  let fileCopy := memoFile.cloneContentsFalse
  { p with
    memo := rememberInto p.memo k fileCopy
    memoBytes := p.memoBytes + fileBytes fileCopy }

/-- The `onData` handler installed by `_runTask` when the `cache` listener
from `_runTaskAndRemember` is attached: ignore data whose `_memoKey` does
not match this correlation; on a match delete the tag, remember the datum
under the key, and emit it as the finished file. -/
def onData (k : MemoKey) (p : Proxy) (datum : File) : Proxy × List File :=
  if datum.tag = some k then
    let d := { datum with tag := none }
    (rememberOp p k d, [d])
  else (p, [])

/-- The outcome of processing one submitted file. -/
structure StepResult where
  state : Proxy
  emitted : List File
  taskInvoked : Bool
deriving DecidableEq, Repr

/-- Translation of `TaskProxy.processFile` for one submission, with the shared task
abstracted as the list of data events it emits for this write (`taskFn`
applied to the tagged input): derive the key, attempt `_restore`; on a hit
emit the repointed clone and push the signals remover; on a miss run
`_runTaskAndRemember` / `_runTask`: attach the three task listeners, raise
the ceiling by three, push the correlation remover, write the tagged file,
and route each matching data event through `onData`. -/
def processOne (o : Opts) (taskFn : File → List File) (p : Proxy)
    (input : File) : StepResult :=
  let memoKey := getFileKey o input
  match memoGet p.memo memoKey with
  | some cell =>
      match pickMemoFile cell input with
      | some memoFile =>
          { state :=
              { p with
                restoredCount := p.restoredCount + 1
                removers := p.removers ++ [Remover.restoreSignals] }
            emitted := [restoreFile memoFile input]
            taskInvoked := false }
      | none => { state := p, emitted := [], taskInvoked := false }
  | none =>
      let p₁ :=
        { p with
          taskListeners := p.taskListeners + 3
          taskMaxListeners := p.taskMaxListeners + 3
          removers := p.removers ++ [Remover.taskCorrelation] }
      let outputs := taskFn (setTag input memoKey)
      let folded := outputs.foldl
        (fun acc datum =>
          let r := onData memoKey acc.1 datum
          (r.1, acc.2 ++ r.2))
        (p₁, ([] : List File))
      { state := folded.1, emitted := folded.2, taskInvoked := true }

/-- What `each` in `index.js` decides for one incoming file. -/
inductive EachOutcome where
  | passedThrough : File → EachOutcome
  | errored : String → EachOutcome
  | processed : StepResult → EachOutcome
deriving DecidableEq, Repr

/-- Translation of `each(file, enc, next)` in `index.js`: null files pass through, stream
files are rejected with a plugin error, buffer files go to
`taskProxy.processFile`. -/
def eachStep (o : Opts) (taskFn : File → List File) (p : Proxy)
    (f : File) : EachOutcome :=
  if f.isNull then EachOutcome.passedThrough f
  else if f.isStream then EachOutcome.errored "Cannot operate on stream sources"
  else EachOutcome.processed (processOne o taskFn p f)

/-- Running one stored remover: the restore path's remover only detaches
the per-item signals; the `_runTask` remover removes the three task
listeners and lowers the ceiling by three. -/
def applyRemover (p : Proxy) : Remover → Proxy
  | Remover.restoreSignals => p
  | Remover.taskCorrelation =>
      { p with
        taskListeners := p.taskListeners - 3
        taskMaxListeners := p.taskMaxListeners - 3 }

/-- Translation of `this._listenerRemovers.forEach((remove) => remove());
this._listenerRemovers = []` in `TaskProxy._flush`. -/
def runRemovers (p : Proxy) : Proxy :=
  let p₁ := p.removers.foldl applyRemover p
  { p₁ with removers := [] }

/-- Translation of the `TaskProxy._flush` state effect: report the totals, run every stored
remover, and clear the memo exactly when `clearMemoOnFlush` is set. -/
def flushInner (clearOnFlush : Bool) (p : Proxy) : Proxy :=
  let p₁ := runRemovers p
  if clearOnFlush then { p₁ with memo := [] } else p₁

/-- Observable events of the `flush(next)` / `_flush` pair. -/
inductive FlushEvent where
  | taskFlushed : FlushEvent
  | reported : FlushEvent
  | removedAll : FlushEvent
  | clearedMemo : FlushEvent
  | signaledNext : FlushEvent
deriving DecidableEq, Repr

/-- Order of observable events in `TaskProxy.flush(next)`: when the task
exposes `_flush` it is invoked first and its continuation — which runs the
proxy's own `_flush` (report, removers, conditional clear) and only then
calls `next` — fires on its completion; otherwise the proxy's `_flush`
runs immediately and `next` follows. -/
def flushTrace (hasTaskFlush clearOnFlush : Bool) : List FlushEvent :=
  (if hasTaskFlush then [FlushEvent.taskFlushed] else []) ++
  [FlushEvent.reported, FlushEvent.removedAll] ++
  (if clearOnFlush then [FlushEvent.clearedMemo] else []) ++
  [FlushEvent.signaledNext]

/-- Injective stand-in for `Buffer.prototype.toString('base64')` (payload
rendering is an external collaborator). -/
def contentsToStringB64 (b : List Nat) : String :=
  String.intercalate "," (b.map Nat.repr)

/-- Translation of `defaultKey(file)` in `index.js`: `file.contents.toString('base64')`
— a string rendering of the buffer payload (null files never reach it and
stream files are rejected earlier). -/
def defaultKey (f : File) : Option String :=
  match f.contents with
  | Contents.buffer b => some (contentsToStringB64 b)
  | _ => none

/-- An options object as a JS object literal: each property is present or
absent. -/
structure OptObj where
  key : Option (File → Option String)
  verbose : Option Bool
  memo : Option Memo
  clearMemoOnFlush : Option Bool
  success : Option (File → Bool)
  value : Option ValueOpt

/-- Translation of `plugin.defaultOptions` in `index.js`: `key`, `verbose`, `memo`,
`clearMemoOnFlush` only — no `success`, no `value`. -/
def defaultOptions : OptObj :=
  { key := some defaultKey
    verbose := some false
    memo := some []
    clearMemoOnFlush := some true
    success := none
    value := none }

/-- Property-wise effect of the JS spread: the override's property wins
when present. -/
def orField {α : Type} (base override : Option α) : Option α :=
  match override with
  | some v => some v
  | none => base

/-- Translation of the JS spread on options objects. -/
def spread (a b : OptObj) : OptObj :=
  { key := orField a.key b.key
    verbose := orField a.verbose b.verbose
    memo := orField a.memo b.memo
    clearMemoOnFlush := orField a.clearMemoOnFlush b.clearMemoOnFlush
    success := orField a.success b.success
    value := orField a.value b.value }

/-- The empty object `{}` used for `task.cacheable || {}`. -/
def emptyOptObj : OptObj :=
  { key := none
    verbose := none
    memo := none
    clearMemoOnFlush := none
    success := none
    value := none }

/-- The option merge in `plugin`: `{ ...plugin.defaultOptions,
...(task.cacheable || {}), ...inputOptions }`. -/
def mergedOptions (cacheable : Option OptObj) (input : OptObj) : OptObj :=
  spread (spread defaultOptions
    (match cacheable with
     | some c => c
     | none => emptyOptObj)) input

/-! ## Concrete fixtures used by witnesses and counterexamples -/

/-- A concrete effective-options record: the key is the rendered buffer
payload, the digest appends a marker, `success` always accepts and `value`
is absent. -/
def sOpts : Opts :=
  { key := fun g =>
      match g.contents with
      | Contents.buffer b => some (contentsToStringB64 b)
      | _ => none
    hash := fun s => s ++ "h"
    verbose := false
    clearMemoOnFlush := true
    success := fun _ => true
    value := ValueOpt.whole }

/-- Options whose `success` predicate rejects every produced item. -/
def sOptsFail : Opts := { sOpts with success := fun _ => false }

/-- Options whose `value` option is the string field name `ran`. -/
def sOptsFieldVal : Opts := { sOpts with value := ValueOpt.field "ran" }

/-- Options whose user `key` function returns a falsy value (`undefined`)
for every file. -/
def sOptsNoneKey : Opts := { sOpts with key := fun _ => none }

/-- A concrete task: replace the payload with the bytes `[9, 9, 9]`,
leaving the correlation tag on the produced datum (as a through-stream
transform does). -/
def sTask : File → List File :=
  fun g => [{ g with contents := Contents.buffer [9, 9, 9] }]

/-- A task that, like the test suite's handler, sets a `ran` flag and
replaces the payload. -/
def sTaskRan : File → List File :=
  fun g => [{ g with contents := Contents.buffer [7],
                     extra := [("ran", "true")] }]

/-- A concrete input file. -/
def sFileA : File :=
  { path := "/in/a.txt", base := "/in", contents := Contents.buffer [1, 2],
    extra := [], tag := none }

/-- A second input with the same payload as `sFileA` but another path. -/
def sFileB : File :=
  { path := "/in/b.txt", base := "/in", contents := Contents.buffer [1, 2],
    extra := [], tag := none }

/-- The datum `sTask` produces for the tagged `sFileA`. -/
def sOutA : File :=
  { path := "/in/a.txt", base := "/in", contents := Contents.buffer [9, 9, 9],
    extra := [], tag := some (some "1,2h") }

/-- The untagged datum `sTaskRan` produces for `sFileA`: the full produced
item, `ran` flag and new payload included. -/
def sOutRan : File :=
  { path := "/in/a.txt", base := "/in", contents := Contents.buffer [7],
    extra := [("ran", "true")], tag := none }

/-- A file whose payload is an open-ended stream. -/
def sStream : File :=
  { path := "/in/s.txt", base := "/in", contents := Contents.stream,
    extra := [], tag := none }

/-- A concrete `task.cacheable` object carrying `key` and `verbose` only. -/
def sCacheable : OptObj :=
  { key := some (fun _ => some "c"), verbose := some true, memo := none,
    clearMemoOnFlush := none, success := none, value := none }

/-- A concrete caller-input object carrying `key` only. -/
def sInputOpts : OptObj :=
  { key := some (fun _ => some "i"), verbose := none, memo := none,
    clearMemoOnFlush := none, success := none, value := none }

/-! ## Helper lemmas shared by several claims -/

/-- Remembering under a key absent from the store creates a singleton cell
for that key. -/
theorem memoGet_rememberInto_none (m : Memo) (k : MemoKey) (f : File)
    (h : memoGet m k = none) :
    memoGet (rememberInto m k f) k = some [f] := by
  induction m with
  | nil => simp [memoGet, rememberInto]
  | cons hd rest ih =>
      obtain ⟨k₂, v⟩ := hd
      by_cases hk : k₂ = k
      · simp [memoGet, hk] at h
      · simp [memoGet, rememberInto, hk] at h ⊢
        exact ih h

/-- Evaluation of `processOne` on a cache miss whose task write produces a
single matching output: the task runs, the untagged output is remembered
under the derived key and emitted, the three task listeners stay attached
with the ceiling raised, and the correlation remover is queued. -/
theorem processOne_miss (o : Opts) (t : File → List File) (p : Proxy)
    (f out : File)
    (hmiss : memoGet p.memo (getFileKey o f) = none)
    (hrun : t (setTag f (getFileKey o f)) = [out])
    (htag : out.tag = some (getFileKey o f)) :
    processOne o t p f =
      { state :=
          { p with
            memo := rememberInto p.memo (getFileKey o f) { out with tag := none }
            memoBytes := p.memoBytes + fileBytes { out with tag := none }
            taskListeners := p.taskListeners + 3
            taskMaxListeners := p.taskMaxListeners + 3
            removers := p.removers ++ [Remover.taskCorrelation] }
        emitted := [{ out with tag := none }]
        taskInvoked := true } := by
  simp [processOne, hmiss, hrun, htag, onData, rememberOp,
    File.cloneContentsFalse]

/-- Evaluation of `processOne` on a cache hit whose cell is a singleton:
the task is not invoked, the sole cached entry is cloned with its identity
re-pointed to the incoming file, and the restored counter is bumped. -/
theorem processOne_hit_single (o : Opts) (t : File → List File) (p : Proxy)
    (f m : File)
    (hget : memoGet p.memo (getFileKey o f) = some [m]) :
    processOne o t p f =
      { state :=
          { p with
            restoredCount := p.restoredCount + 1
            removers := p.removers ++ [Remover.restoreSignals] }
        emitted := [{ m with path := f.path, base := f.base }]
        taskInvoked := false } := by
  simp [processOne, hget, pickMemoFile, restoreFile, File.cloneContentsFalse]

/-! ## Claims -/

/-- C5: for a pair of submissions with the same derived key against the
same memo store (the first a miss whose task write yields one matching
output), the underlying task is invoked exactly once — for the first
submission only; the second delivered result is the cached entry cloned
with its `path` and `base` re-pointed to the second item's identity,
its contents being the first run's output and every other field the cached
entry's; and the restored-count counter is incremented on the hit. -/
theorem c5_same_key_invokes_task_once (o : Opts) (t : File → List File)
    (p : Proxy) (f₁ f₂ out : File)
    (hmiss : memoGet p.memo (getFileKey o f₁) = none)
    (hkey : getFileKey o f₂ = getFileKey o f₁)
    (hrun : t (setTag f₁ (getFileKey o f₁)) = [out])
    (htag : out.tag = some (getFileKey o f₁)) :
    (processOne o t p f₁).taskInvoked = true ∧
    (processOne o t (processOne o t p f₁).state f₂).taskInvoked = false ∧
    (processOne o t p f₁).emitted = [{ out with tag := none }] ∧
    (processOne o t (processOne o t p f₁).state f₂).emitted
      = [{ out with tag := none, path := f₂.path, base := f₂.base }] ∧
    (processOne o t (processOne o t p f₁).state f₂).state.restoredCount
      = (processOne o t p f₁).state.restoredCount + 1 := by
  have h₁ := processOne_miss o t p f₁ out hmiss hrun htag
  have hget : memoGet (processOne o t p f₁).state.memo (getFileKey o f₂)
      = some [{ out with tag := none }] := by
    rw [h₁, hkey]
    exact memoGet_rememberInto_none _ _ _ hmiss
  have h₂ := processOne_hit_single o t (processOne o t p f₁).state f₂
    { out with tag := none } hget
  refine ⟨by rw [h₁], by rw [h₂], by rw [h₁], by rw [h₂], by rw [h₂]⟩

/-- C5 witness: a concrete first run through the task and a second
submission with the same payload served from the memo. -/
theorem c5_same_key_invokes_task_once_witness :
    (processOne sOpts sTask (mkProxy 0 []) sFileA).taskInvoked = true ∧
    (processOne sOpts sTask
      (processOne sOpts sTask (mkProxy 0 []) sFileA).state sFileB).taskInvoked
      = false := by
  have h := c5_same_key_invokes_task_once sOpts sTask (mkProxy 0 [])
    sFileA sFileB sOutA (by decide) (by decide) (by decide) (by decide)
  exact ⟨h.1, h.2.1⟩

/-- C6: cache-lookup entry selection — with more than one entry in the
cell, an entry whose basename equals the incoming item's basename is
returned when one exists, the first entry is returned when no basename
matches, and a singleton cell's sole entry is returned regardless of
basename. -/
theorem c6_lookup_disambiguates_by_basename (cell : List File) (input : File) :
    (cell.length = 1 → pickMemoFile cell input = cell.head?) ∧
    (1 < cell.length →
      ((∃ e ∈ cell, e.basename = input.basename) →
        ∃ e, pickMemoFile cell input = some e ∧ e ∈ cell ∧
          e.basename = input.basename) ∧
      ((∀ e ∈ cell, e.basename ≠ input.basename) →
        pickMemoFile cell input = cell.head?)) := by
  constructor
  · intro h
    simp [pickMemoFile, h]
  · intro hlen
    have hne : cell.length ≠ 1 := by omega
    constructor
    · rintro ⟨e, he, hb⟩
      unfold pickMemoFile
      rw [if_neg hne]
      cases hfind : cell.find? (fun el => el.basename == input.basename) with
      | none =>
          rw [List.find?_eq_none] at hfind
          exact absurd (by simpa using hb) (by simpa using hfind e he)
      | some m =>
          exact ⟨m, rfl, List.mem_of_find?_eq_some hfind,
            by simpa using List.find?_some hfind⟩
    · intro hall
      unfold pickMemoFile
      rw [if_neg hne]
      have hfind : cell.find? (fun el => el.basename == input.basename) = none := by
        rw [List.find?_eq_none]
        intro x hx
        simpa using hall x hx
      rw [hfind]

/-- C6 witness: a two-entry cell where the incoming basename matches the
second entry, evaluated concretely. -/
theorem c6_lookup_disambiguates_by_basename_witness :
    (1 < ([sFileA, sFileB] : List File).length) ∧
    (∃ e, pickMemoFile [sFileA, sFileB] sFileB = some e ∧
      e ∈ [sFileA, sFileB] ∧ e.basename = sFileB.basename) := by
  refine ⟨by decide, ?_⟩
  exact ((c6_lookup_disambiguates_by_basename [sFileA, sFileB] sFileB).2
    (by decide)).1 ⟨sFileB, by decide, by decide⟩

/-- C7: a submitted item with an open-stream payload is immediately
rejected with the capability error, and the outcome is independent of the
options, the task and the proxy state — the item is never written to the
task and key derivation is never attempted. -/
theorem c7_stream_rejected (o o₂ : Opts) (t t₂ : File → List File)
    (p p₂ : Proxy) (f : File) (h : f.isStream = true) :
    eachStep o t p f = EachOutcome.errored "Cannot operate on stream sources" ∧
    eachStep o t p f = eachStep o₂ t₂ p₂ f := by
  have hnull : f.isNull = false := by
    unfold File.isStream at h
    unfold File.isNull
    revert h
    cases f.contents <;> simp
  constructor
  · simp [eachStep, hnull, h]
  · simp [eachStep, hnull, h]

/-- C7 witness: a concrete stream-payload file is rejected identically
under two different option/task/state environments. -/
theorem c7_stream_rejected_witness :
    eachStep sOpts sTask (mkProxy 0 []) sStream
      = EachOutcome.errored "Cannot operate on stream sources" ∧
    eachStep sOpts sTask (mkProxy 0 []) sStream
      = eachStep sOptsNoneKey sTaskRan (mkProxy 5 [(some "k", [sFileA])]) sStream :=
  c7_stream_rejected sOpts sOptsNoneKey sTask sTaskRan (mkProxy 0 [])
    (mkProxy 5 [(some "k", [sFileA])]) sStream (by decide)

/-- Running removers never touches the memo map. -/
theorem foldl_applyRemover_memo (l : List Remover) (p : Proxy) :
    (l.foldl applyRemover p).memo = p.memo := by
  induction l generalizing p with
  | nil => rfl
  | cons r rest ih =>
      have : (applyRemover p r).memo = p.memo := by cases r <;> rfl
      simp [List.foldl, ih, this]

/-- Lemma: `runRemovers` leaves the memo map unchanged. -/
theorem runRemovers_memo (p : Proxy) : (runRemovers p).memo = p.memo := by
  unfold runRemovers
  exact foldl_applyRemover_memo p.removers p

/-- C8: on end-of-input the task's flush operation is invoked exactly when
the task exposes one (and then first), the memo is cleared exactly when
`clearMemoOnFlush` is set (whose default is `true`), and completion is
signalled last — once, after the report, the subscription cleanup and the
conditional clear. -/
theorem c8_flush_order_and_clear (h c : Bool) (p : Proxy) :
    ((FlushEvent.taskFlushed ∈ flushTrace h c) ↔ h = true) ∧
    ((FlushEvent.clearedMemo ∈ flushTrace h c) ↔ c = true) ∧
    (flushTrace h c).getLast? = some FlushEvent.signaledNext ∧
    (flushTrace h c).count FlushEvent.signaledNext = 1 ∧
    FlushEvent.reported ∈ flushTrace h c ∧
    FlushEvent.removedAll ∈ flushTrace h c ∧
    (h = true → (flushTrace h c).head? = some FlushEvent.taskFlushed) ∧
    (flushInner c p).memo = (if c then [] else p.memo) ∧
    defaultOptions.clearMemoOnFlush = some true := by
  refine ⟨?_, ?_, ?_, ?_, ?_, ?_, ?_, ?_, rfl⟩
  · cases h <;> cases c <;> decide
  · cases h <;> cases c <;> decide
  · cases h <;> cases c <;> decide
  · cases h <;> cases c <;> decide
  · cases h <;> cases c <;> decide
  · cases h <;> cases c <;> decide
  · cases h <;> cases c <;> decide
  · cases c
    · simpa [flushInner] using runRemovers_memo p
    · simp [flushInner]

/-- C8 witness: with a task flush present and clearing enabled, the task
flush comes first, the memo of a populated proxy is cleared, and completion
is the last event. -/
theorem c8_flush_order_and_clear_witness :
    (flushTrace true true).head? = some FlushEvent.taskFlushed ∧
    (flushInner true (mkProxy 0 [(some "k", [sFileA])])).memo = [] ∧
    (flushTrace true true).getLast? = some FlushEvent.signaledNext := by
  have h := c8_flush_order_and_clear true true (mkProxy 0 [(some "k", [sFileA])])
  exact ⟨h.2.2.2.2.2.2.1 rfl, by simpa using h.2.2.2.2.2.2.2.1, h.2.2.1⟩

/-- C9: the effective configuration is the three-layer spread of the
process-wide defaults, the task's `cacheable` object and the caller's
input, in that order — so a property present on the input wins over both,
a property present only on `cacheable` wins over the default, and
otherwise the default stands; property-wise for all six options. -/
theorem c9_option_merge_precedence (c i : OptObj) :
    ((∀ v, i.key = some v → (mergedOptions (some c) i).key = some v) ∧
     (∀ v, i.key = none → c.key = some v →
        (mergedOptions (some c) i).key = some v) ∧
     (i.key = none → c.key = none →
        (mergedOptions (some c) i).key = defaultOptions.key)) ∧
    ((∀ v, i.verbose = some v → (mergedOptions (some c) i).verbose = some v) ∧
     (∀ v, i.verbose = none → c.verbose = some v →
        (mergedOptions (some c) i).verbose = some v) ∧
     (i.verbose = none → c.verbose = none →
        (mergedOptions (some c) i).verbose = defaultOptions.verbose)) ∧
    ((∀ v, i.memo = some v → (mergedOptions (some c) i).memo = some v) ∧
     (∀ v, i.memo = none → c.memo = some v →
        (mergedOptions (some c) i).memo = some v) ∧
     (i.memo = none → c.memo = none →
        (mergedOptions (some c) i).memo = defaultOptions.memo)) ∧
    ((∀ v, i.clearMemoOnFlush = some v →
        (mergedOptions (some c) i).clearMemoOnFlush = some v) ∧
     (∀ v, i.clearMemoOnFlush = none → c.clearMemoOnFlush = some v →
        (mergedOptions (some c) i).clearMemoOnFlush = some v) ∧
     (i.clearMemoOnFlush = none → c.clearMemoOnFlush = none →
        (mergedOptions (some c) i).clearMemoOnFlush
          = defaultOptions.clearMemoOnFlush)) ∧
    ((∀ v, i.success = some v → (mergedOptions (some c) i).success = some v) ∧
     (∀ v, i.success = none → c.success = some v →
        (mergedOptions (some c) i).success = some v) ∧
     (i.success = none → c.success = none →
        (mergedOptions (some c) i).success = defaultOptions.success)) ∧
    ((∀ v, i.value = some v → (mergedOptions (some c) i).value = some v) ∧
     (∀ v, i.value = none → c.value = some v →
        (mergedOptions (some c) i).value = some v) ∧
     (i.value = none → c.value = none →
        (mergedOptions (some c) i).value = defaultOptions.value)) := by
  refine ⟨⟨?_, ?_, ?_⟩, ⟨?_, ?_, ?_⟩, ⟨?_, ?_, ?_⟩, ⟨?_, ?_, ?_⟩,
    ⟨?_, ?_, ?_⟩, ⟨?_, ?_, ?_⟩⟩ <;>
    intros <;> simp_all [mergedOptions, spread, orField]

/-- C9 witness: with a caller input carrying `key`, a `cacheable` object
carrying `verbose`, and neither carrying `clearMemoOnFlush`, the merged
options take the key from the input, the verbosity from `cacheable`, and
the default clear-on-flush. -/
theorem c9_option_merge_precedence_witness :
    (mergedOptions (some sCacheable) sInputOpts).key = sInputOpts.key ∧
    (mergedOptions (some sCacheable) sInputOpts).verbose = some true ∧
    (mergedOptions (some sCacheable) sInputOpts).clearMemoOnFlush
      = defaultOptions.clearMemoOnFlush := by
  have h := c9_option_merge_precedence sCacheable sInputOpts
  exact ⟨h.1.1 _ rfl, h.2.1.2.1 true rfl rfl, h.2.2.2.1.2.2 rfl rfl⟩

/-- Folding an accumulating sum over a list equals the starting value plus
the sum of the mapped list. -/
theorem foldl_add_map_sum {α : Type} (g : α → Nat) (l : List α) (n : Nat) :
    l.foldl (fun a x => a + g x) n = n + (l.map g).sum := by
  induction l generalizing n with
  | nil => simp
  | cons x xs ih => simp [List.foldl, ih, Nat.add_assoc]

/-- C10: at construction the cached-payload byte counter equals the sum of
the buffer payload byte lengths of every entry already in the injected
memo (non-buffer payloads counting 0), and every remember adds the
remembered entry's payload byte length. -/
theorem c10_byte_counter_accounting (tm : Nat) (m : Memo) (p : Proxy)
    (k : MemoKey) (f : File) :
    (mkProxy tm m).memoBytes
      = (m.map (fun cell => (cell.2.map fileBytes).sum)).sum ∧
    (∀ g : File, g.isBuffer = false → fileBytes g = 0) ∧
    (rememberOp p k f).memoBytes = p.memoBytes + fileBytes f := by
  refine ⟨?_, ?_, rfl⟩
  · show initMemoBytes m = _
    unfold initMemoBytes
    rw [foldl_add_map_sum (fun cell => cell.2.foldl (fun a g => a + fileBytes g) 0) m 0]
    simp [foldl_add_map_sum]
  · intro g hg
    unfold File.isBuffer at hg
    unfold fileBytes
    revert hg
    cases g.contents <;> simp

/-- C10 witness: a pre-populated store with one buffer entry and one
null entry initializes the counter to the buffer's length, and a concrete
remember adds the entry's bytes. -/
theorem c10_byte_counter_accounting_witness :
    (mkProxy 0 [(some "k", [sFileA]),
                (some "q", [{ sFileA with contents := Contents.null }])]).memoBytes
      = ([(some "k", [sFileA]),
          (some "q", [{ sFileA with contents := Contents.null }])].map
            (fun cell => (cell.2.map fileBytes).sum)).sum ∧
    fileBytes { sFileA with contents := Contents.null } = 0 ∧
    (rememberOp (mkProxy 0 []) (some "k") sOutA).memoBytes
      = (mkProxy 0 []).memoBytes + fileBytes sOutA := by
  have h := c10_byte_counter_accounting 0
    [(some "k", [sFileA]), (some "q", [{ sFileA with contents := Contents.null }])]
    (mkProxy 0 []) (some "k") sOutA
  exact ⟨h.1, h.2.1 _ rfl, h.2.2⟩

/-- C1 counterexample: with a configured `success` predicate that rejects
the produced item, the memo store is nevertheless changed by the first
submission, and a second submission with the same derived key does not
invoke the task again — the claim's conjunction is false on this concrete
input. -/
theorem c1_counterexample :
    sOptsFail.success sOutA = false ∧
    ¬ ((processOne sOptsFail sTask (mkProxy 0 []) sFileA).state.memo
         = (mkProxy 0 []).memo ∧
       StepResult.taskInvoked
         (processOne sOptsFail sTask
           (processOne sOptsFail sTask (mkProxy 0 []) sFileA).state sFileA)
         = true) := by
  decide

/-- C1 amended: the `success` option is never consulted — processing is
identical under any success predicate; a produced matching item is always
remembered under the derived key and delivered unchanged (minus the
correlation tag), so a subsequent submission with the same key is served
from the memo without invoking the task. -/
theorem c1_success_never_consulted (o : Opts) (s : File → Bool)
    (t : File → List File) (p : Proxy) (f out : File)
    (hmiss : memoGet p.memo (getFileKey o f) = none)
    (hrun : t (setTag f (getFileKey o f)) = [out])
    (htag : out.tag = some (getFileKey o f)) :
    processOne { o with success := s } t p f = processOne o t p f ∧
    (processOne o t p f).emitted = [{ out with tag := none }] ∧
    memoGet (processOne o t p f).state.memo (getFileKey o f)
      = some [{ out with tag := none }] ∧
    (processOne o t (processOne o t p f).state f).taskInvoked = false := by
  have h₁ := processOne_miss o t p f out hmiss hrun htag
  have hget : memoGet (processOne o t p f).state.memo (getFileKey o f)
      = some [{ out with tag := none }] := by
    rw [h₁]
    exact memoGet_rememberInto_none _ _ _ hmiss
  have h₂ := processOne_hit_single o t (processOne o t p f).state f
    { out with tag := none } hget
  exact ⟨rfl, by rw [h₁], hget, by rw [h₂]⟩

/-- C1 amended witness: a rejecting and an accepting success predicate
yield identical concrete runs, and the item is remembered. -/
theorem c1_success_never_consulted_witness :
    processOne sOptsFail sTask (mkProxy 0 []) sFileA
      = processOne sOpts sTask (mkProxy 0 []) sFileA ∧
    memoGet (processOne sOpts sTask (mkProxy 0 []) sFileA).state.memo
      (getFileKey sOpts sFileA) = some [{ sOutA with tag := none }] := by
  have h := c1_success_never_consulted sOpts (fun _ => false) sTask
    (mkProxy 0 []) sFileA sOutA (by decide) (by decide) (by decide)
  exact ⟨h.1, h.2.2.1⟩

/-- C2 counterexample: with `value` configured as the string field name
`ran`, the entry stored for the produced item is the full item — payload
bytes, path and the `ran` field included — not the field's value alone;
and a run configured with a `value` function stores the same full item,
not the function's return value. -/
theorem c2_counterexample :
    memoGet (processOne sOptsFieldVal sTaskRan (mkProxy 0 []) sFileA).state.memo
      (getFileKey sOptsFieldVal sFileA) = some [sOutRan] ∧
    sOutRan.contents = Contents.buffer [7] ∧
    sOutRan.path = "/in/a.txt" ∧
    sOutRan.extra = [("ran", "true")] ∧
    processOne sOptsFieldVal sTaskRan (mkProxy 0 []) sFileA
      = processOne { sOpts with value := ValueOpt.fn (fun _ => [("cached", "true")]) }
          sTaskRan (mkProxy 0 []) sFileA := by
  decide

/-- C2 amended: the `value` option is never consulted — processing is
identical under any value projector, and the entry remembered is always
the whole produced item (a clone sharing its payload), for string,
function and absent `value` alike. -/
theorem c2_value_never_consulted (o : Opts) (v : ValueOpt)
    (t : File → List File) (p : Proxy) (f out : File)
    (hmiss : memoGet p.memo (getFileKey o f) = none)
    (hrun : t (setTag f (getFileKey o f)) = [out])
    (htag : out.tag = some (getFileKey o f)) :
    processOne { o with value := v } t p f = processOne o t p f ∧
    memoGet (processOne o t p f).state.memo (getFileKey o f)
      = some [{ out with tag := none }] := by
  have h₁ := processOne_miss o t p f out hmiss hrun htag
  refine ⟨rfl, ?_⟩
  rw [h₁]
  exact memoGet_rememberInto_none _ _ _ hmiss

/-- C2 amended witness: the field-name and absent `value` configurations
store the identical whole item in a concrete run. -/
theorem c2_value_never_consulted_witness :
    processOne sOptsFieldVal sTaskRan (mkProxy 0 []) sFileA
      = processOne sOpts sTaskRan (mkProxy 0 []) sFileA ∧
    memoGet (processOne sOpts sTaskRan (mkProxy 0 []) sFileA).state.memo
      (getFileKey sOpts sFileA) = some [sOutRan] := by
  have h := c2_value_never_consulted sOpts (ValueOpt.field "ran") sTaskRan
    (mkProxy 0 []) sFileA { sOutRan with tag := some (some "1,2h") }
    (by decide) (by decide) (by decide)
  exact ⟨h.1, h.2⟩

/-- C3 counterexample: with a user key function returning a falsy value
(`undefined`) the derivation yields absence, yet the first submission
populates the store under that falsy key and a second item with the same
falsy key matches the cached entry and is not routed through the task. -/
theorem c3_counterexample :
    getFileKey sOptsNoneKey sFileA = none ∧
    ¬ (memoGet (processOne sOptsNoneKey sTask (mkProxy 0 []) sFileA).state.memo
         none = none ∧
       StepResult.taskInvoked
         (processOne sOptsNoneKey sTask
           (processOne sOptsNoneKey sTask (mkProxy 0 []) sFileA).state sFileB)
         = true) := by
  decide

/-- C3 amended: a falsy derived key skips only the digest — the falsy
value itself is used as the memo key, the store is populated under it, and
a subsequent submission whose derivation yields the same falsy key is
restored from the memo without invoking the task. -/
theorem c3_falsy_key_still_memoized (o : Opts) (t : File → List File)
    (p : Proxy) (f out : File) (kv : Option String)
    (hk : o.key f = kv) (hfalsy : jsTruthy kv = false)
    (hmiss : memoGet p.memo kv = none)
    (hrun : t (setTag f kv) = [out]) (htag : out.tag = some kv) :
    getFileKey o f = kv ∧
    memoGet (processOne o t p f).state.memo kv
      = some [{ out with tag := none }] ∧
    (processOne o t (processOne o t p f).state f).taskInvoked = false := by
  have hkey : getFileKey o f = kv := by
    simp [getFileKey, hk, hfalsy]
  have h₁ := processOne_miss o t p f out (by rw [hkey]; exact hmiss)
    (by rw [hkey]; exact hrun) (by rw [hkey]; exact htag)
  have hget : memoGet (processOne o t p f).state.memo kv
      = some [{ out with tag := none }] := by
    rw [h₁]
    show memoGet (rememberInto p.memo (getFileKey o f) _) kv = _
    rw [hkey]
    exact memoGet_rememberInto_none _ _ _ hmiss
  have hget₂ : memoGet (processOne o t p f).state.memo (getFileKey o f)
      = some [{ out with tag := none }] := by rw [hkey]; exact hget
  have h₂ := processOne_hit_single o t (processOne o t p f).state f
    { out with tag := none } hget₂
  exact ⟨hkey, hget, by rw [h₂]⟩

/-- C3 amended witness: a concrete falsy-key run populates the store under
`undefined` and the second submission restores. -/
theorem c3_falsy_key_still_memoized_witness :
    getFileKey sOptsNoneKey sFileA = none ∧
    memoGet (processOne sOptsNoneKey sTask (mkProxy 0 []) sFileA).state.memo
      none = some [{ sFileA with contents := Contents.buffer [9, 9, 9] }] ∧
    StepResult.taskInvoked
      (processOne sOptsNoneKey sTask
        (processOne sOptsNoneKey sTask (mkProxy 0 []) sFileA).state sFileA)
      = false := by
  have h := c3_falsy_key_still_memoized sOptsNoneKey sTask (mkProxy 0 [])
    sFileA { sFileA with contents := Contents.buffer [9, 9, 9], tag := some none }
    none (by decide) (by decide) (by decide) (by decide) (by decide)
  exact ⟨h.1, h.2.1, h.2.2⟩

/-- C4 counterexample: a cache-miss item is fully resolved — its matching
output has been delivered — yet the three subscriptions the router added
to the shared task are still attached and the subscriber-capacity ceiling
is still raised above its prior value of 0; nothing was detached at
resolution time. -/
theorem c4_counterexample :
    (processOne sOpts sTask (mkProxy 0 []) sFileA).emitted ≠ [] ∧
    ¬ ((processOne sOpts sTask (mkProxy 0 []) sFileA).state.taskListeners = 0 ∧
       (processOne sOpts sTask (mkProxy 0 []) sFileA).state.taskMaxListeners
         = (mkProxy 0 []).taskMaxListeners) := by
  decide

/-- C4 amended: the router's subscriptions are not detached when a
correlation resolves; the remover is queued and the three listeners stay
attached with the ceiling raised by three after the matching output is
delivered, and only running the queued removers (which `_flush` does at
end-of-stream) detaches them and restores the ceiling to its prior
value. -/
theorem c4_detach_deferred_to_flush (o : Opts) (t : File → List File)
    (p : Proxy) (f out : File)
    (hmiss : memoGet p.memo (getFileKey o f) = none)
    (hrun : t (setTag f (getFileKey o f)) = [out])
    (htag : out.tag = some (getFileKey o f))
    (hrem : p.removers = []) :
    (processOne o t p f).emitted = [{ out with tag := none }] ∧
    (processOne o t p f).state.taskListeners = p.taskListeners + 3 ∧
    (processOne o t p f).state.taskMaxListeners = p.taskMaxListeners + 3 ∧
    (processOne o t p f).state.removers = [Remover.taskCorrelation] ∧
    (runRemovers (processOne o t p f).state).taskListeners
      = p.taskListeners ∧
    (runRemovers (processOne o t p f).state).taskMaxListeners
      = p.taskMaxListeners := by
  have h₁ := processOne_miss o t p f out hmiss hrun htag
  rw [h₁]
  refine ⟨rfl, rfl, rfl, by simp [hrem], ?_, ?_⟩
  · simp [runRemovers, hrem, applyRemover]
  · simp [runRemovers, hrem, applyRemover]

/-- C4 amended witness: a concrete resolved miss leaves three listeners
attached and ceiling 3; running the removers returns both to 0. -/
theorem c4_detach_deferred_to_flush_witness :
    (processOne sOpts sTask (mkProxy 0 []) sFileA).state.taskListeners = 3 ∧
    (processOne sOpts sTask (mkProxy 0 []) sFileA).state.taskMaxListeners = 3 ∧
    Proxy.taskListeners
      (runRemovers (processOne sOpts sTask (mkProxy 0 []) sFileA).state) = 0 ∧
    Proxy.taskMaxListeners
      (runRemovers (processOne sOpts sTask (mkProxy 0 []) sFileA).state) = 0 := by
  have h := c4_detach_deferred_to_flush sOpts sTask (mkProxy 0 []) sFileA
    sOutA (by decide) (by decide) (by decide) rfl
  exact ⟨h.2.1, h.2.2.1, h.2.2.2.2.1, h.2.2.2.2.2⟩

end GulpMemoize
